import Mathlib

/-!
Shallow embedding of the feedback-analyzer worker.

The repository contains two versions of the worker:
* `src/index.ts` — embedded below under the `Main` namespace; it is the version
  with the insight engine (`getPainPoints`, `calculateSentimentScore`,
  `generateActionItems`, `getThemeBreakdown`) and the two cache keys
  `"stats"` / `"insights"`.
* `src/src/index.ts` — embedded under the `Alt` namespace; it is the variant
  with the `{low, normal, urgent}` urgency vocabulary, per-item error recovery
  in batch analysis, and a single `"stats"` cache key.

Strings are modelled as `List Char` (`Str`).  JavaScript `\s` and
`String.prototype.trim` are modelled on their ASCII whitespace subset, which
covers every string the worker itself produces.  Numeric JS expressions
(`Math.round`, `x / 2`, `(a - b) / a < 0.5`) are modelled by exact integer
arithmetic; each definition notes the correspondence where it is not literal.
-/

/-- Strings as lists of characters. -/
abbrev Str := List Char

/-- Shorthand to turn a Lean string literal into `Str`. -/
def str (s : String) : Str := s.toList

/-- ASCII whitespace, the relevant fragment of JavaScript `\s` / `trim()`. -/
def isWsChar (c : Char) : Bool :=
  c = ' ' || c = '\t' || c = '\n' || c = '\r' || c = '\x0b' || c = '\x0c'

/-- JavaScript `String.prototype.trim`: strip whitespace from both ends. -/
def trimStr (s : Str) : Str :=
  ((s.dropWhile isWsChar).reverse.dropWhile isWsChar).reverse

/-- JavaScript `String.prototype.toLowerCase` (ASCII fragment). -/
def lowerStr (s : Str) : Str := s.map Char.toLower

/-- JavaScript `String.prototype.split(sep)` for a one-character separator:
`"".split(',') = [""]`, `"a,".split(',') = ["a", ""]`. -/
def splitOnChar (sep : Char) : Str → List Str
  | [] => [[]]
  | c :: cs =>
    if c = sep then [] :: splitOnChar sep cs
    else
      match splitOnChar sep cs with
      | [] => [[c]]
      | s :: ss => (c :: s) :: ss

/-- `themes.split(',').map(t => t.trim())` — the per-tag splitting used by the
insight engine. -/
def splitTrim (s : Str) : List Str :=
  (splitOnChar ',' s).map trimStr

/-- JavaScript `String.prototype.includes`: substring containment. -/
def isSubstr (needle : Str) : Str → Bool
  | [] => needle.isEmpty
  | c :: cs => needle.isPrefixOf (c :: cs) || isSubstr needle cs

/-- `f.themes?.includes(pat)`: `undefined`/`null` propagates to a falsy result. -/
def optIncludes (o : Option Str) (pat : Str) : Bool :=
  match o with
  | none => false
  | some s => isSubstr pat s

/-- JavaScript truthiness of a nullable string: `null` and `""` are falsy. -/
def jsTruthy (o : Option Str) : Bool :=
  match o with
  | none => false
  | some s => !s.isEmpty

/-- Case-insensitive `startsWith`, used to model the `i` regex flag. -/
def startsWithCI (pat s : Str) : Bool :=
  (lowerStr pat).isPrefixOf (lowerStr s)

/-- Strip `pat` (case-insensitively) from the front of `s`. -/
def stripCI (pat s : Str) : Option Str :=
  if startsWithCI pat s then some (s.drop pat.length) else none

/-- Try a pattern at every position of the string, returning the first success:
the search behaviour of an unanchored JavaScript regex. -/
def scanFirst {α : Type} (f : Str → Option α) : Str → Option α
  | [] => f []
  | c :: cs =>
    match f (c :: cs) with
    | some a => some a
    | none => scanFirst f cs

/-- One attempt of `/LABEL:\s*(alt1|alt2|...)/i` at a fixed position: match the
label, skip whitespace, then match one of the alternatives as a prefix.  The
returned value is the matched alternative in lower case, exactly what the
worker's `match[1].toLowerCase()` produces. -/
def labelAltAt (label : Str) (alts : List Str) (s : Str) : Option Str :=
  match stripCI label s with
  | none => none
  | some rest =>
    let rest2 := rest.dropWhile isWsChar
    alts.find? (fun a => startsWithCI a rest2)

/-- One attempt of `/THEMES:\s*([^\n]+)/i` at a fixed position, fused with the
`.trim()` the worker applies to the capture right afterwards.  After the label,
greedy `\s*` stops at the first non-whitespace character; if one exists the
capture runs to the end of the line and is trimmed.  If the remainder is all
whitespace, the regex backtracks and still matches when some whitespace
character other than `'\n'` is available, producing an all-whitespace capture
that trims to the empty string; otherwise this position fails. -/
def themesAt (s : Str) : Option Str :=
  match stripCI (str "THEMES:") s with
  | none => none
  | some rest =>
    let ws := rest.takeWhile isWsChar
    let rest2 := rest.drop ws.length
    if rest2.isEmpty then
      if ws.any (fun c => c ≠ '\n') then some [] else none
    else
      some (trimStr (rest2.takeWhile (fun c => c ≠ '\n')))

/-- `result.match(/SENTIMENT:\s*(positive|negative|neutral)/i)`, lower-cased. -/
def scanSentiment (s : Str) : Option Str :=
  scanFirst (labelAltAt (str "SENTIMENT:") [str "positive", str "negative", str "neutral"]) s

/-- `result.match(/URGENCY:\s*(low|medium|high)/i)`, lower-cased. -/
def scanUrgency (s : Str) : Option Str :=
  scanFirst (labelAltAt (str "URGENCY:") [str "low", str "medium", str "high"]) s

/-- `result.match(/THEMES:\s*([^\n]+)/i)`, with the subsequent `.trim()`. -/
def scanThemes (s : Str) : Option Str :=
  scanFirst themesAt s

/-- The `{sentiment, themes, urgency}` triple produced by the label extractor. -/
structure Analysis where
  sentiment : Str
  themes : Str
  urgency : Str
  deriving DecidableEq

deriving instance DecidableEq for Except

/-- `analyzeWithAI` from `src/index.ts`.  The external call is modelled by its
outcome: `none` when `env.AI.run` rejects (the `catch` branch), `some r` when it
returns the response text `r`.  The whole body is inside `try/catch`, so this
version is a total function: failures collapse to the all-defaults triple. -/
def Main.analyzeWithAI (resp : Option Str) : Analysis :=
  match resp with
  | none =>
    -- Fallback if AI fails
    ⟨str "neutral", str "general", str "medium"⟩
  | some r =>
    let result := trimStr r
    let sentiment := (scanSentiment result).getD (str "neutral")
    let themes := (scanThemes result).getD (str "general")
    let urgency := (scanUrgency result).getD (str "medium")
    ⟨if [str "positive", str "negative", str "neutral"].contains sentiment then sentiment
      else str "neutral",
     themes,
     if [str "low", str "medium", str "high"].contains urgency then urgency
      else str "medium"⟩

/-- `line.split(':')[1]` — the worker only evaluates this on lines that start
with `label:`, so index 1 exists; `getD` is the total rendering. -/
def afterColon (line : Str) : Str :=
  (splitOnChar ':' line).getD 1 []

/-- `analyzeWithAI` from `src/src/index.ts`.  This version has no `try/catch`:
a rejection of `env.AI.run` (modelled by `resp = none`) propagates to the
caller.  On a response it parses `Sentiment:/Themes:/Urgency:` lines and
validates sentiment and urgency against their closed vocabularies. -/
def Alt.analyzeWithAI (resp : Option Str) : Except Unit Analysis :=
  match resp with
  | none => .error ()
  | some r =>
    let lines := (splitOnChar '\n' r).filter (fun l => !(trimStr l).isEmpty)
    let parsed := lines.foldl
      (fun (acc : Str × Str × Str) line =>
        if startsWithCI (str "sentiment:") line then
          (lowerStr (trimStr (afterColon line)), acc.2.1, acc.2.2)
        else if startsWithCI (str "themes:") line then
          (acc.1, trimStr (afterColon line), acc.2.2)
        else if startsWithCI (str "urgency:") line then
          (acc.1, acc.2.1, lowerStr (trimStr (afterColon line)))
        else acc)
      (str "neutral", [], str "normal")
    let sentiment :=
      if [str "positive", str "negative", str "neutral"].contains parsed.1 then parsed.1
      else str "neutral"
    let urgency :=
      if [str "urgent", str "normal", str "low"].contains parsed.2.2 then parsed.2.2
      else str "normal"
    .ok ⟨sentiment, parsed.2.1, urgency⟩

/-- One row of the `feedback` table (`FeedbackEntry` in both sources).
`created_at` is modelled as a numeric timestamp. -/
structure FeedbackEntry where
  id : Nat
  source : Str
  text : Str
  sentiment : Option Str
  themes : Option Str
  urgency : Option Str
  created_at : Nat
  deriving DecidableEq

/-- Decimal rendering of a count interpolated into a template string. -/
def numStr (n : Nat) : Str := (Nat.repr n).toList

/-- Insert `a` into `l`, keeping elements `b` with `le b a` in front: one step
of a stable insertion sort. -/
def insertSorted {α : Type} (le : α → α → Bool) (a : α) : List α → List α
  | [] => [a]
  | b :: bs => if le b a then b :: insertSorted le a bs else a :: b :: bs

/-- Stable sort by the boolean relation `le`, modelling JavaScript
`Array.prototype.sort` with a numeric comparator (JS sort is stable, and every
comparator used by the worker is of the form `(a, b) => key(b) - key(a)`,
i.e. `le a b = key b ≤ key a`). -/
def sortBy {α : Type} (le : α → α → Bool) (l : List α) : List α :=
  l.foldl (fun acc a => insertSorted le a acc) []

/-- Append occurrence value `v` under key `k`: the JS idiom
`if (!m[k]) m[k] = init; m[k].push(v)` on an insertion-ordered object. -/
def addOcc {β : Type} (k : Str) (v : β) : List (Str × List β) → List (Str × List β)
  | [] => [(k, [v])]
  | e :: rest => if e.1 = k then (e.1, e.2 ++ [v]) :: rest else e :: addOcc k v rest

/-- Group a list of `(key, value)` occurrences into an insertion-ordered table
from keys to the list of their values — the accumulation pattern of both
`getPainPoints` and `getThemeBreakdown` (which keep per-key counters; the
counters are recovered from the value lists below). -/
def tally {β : Type} (ps : List (Str × β)) : List (Str × List β) :=
  ps.foldl (fun acc p => addOcc p.1 p.2 acc) []

/-- The keys of `tally` in first-occurrence order. -/
def occKeys {β : Type} (ps : List (Str × β)) : List Str :=
  ps.foldl (fun acc p => if p.1 ∈ acc then acc else acc ++ [p.1]) []

/-- A `{theme, count, severity}` row of `painPoints`. -/
structure PainPoint where
  theme : Str
  count : Nat
  severity : Str
  deriving DecidableEq

/-- The `(theme, urgency)` occurrences that `getPainPoints` iterates over:
negative-sentiment entries with truthy `themes`, one occurrence per tag
produced by `themes.split(',').map(t => t.trim())`. -/
def Main.ppPairs (feedback : List FeedbackEntry) : List (Str × Option Str) :=
  (feedback.filter (fun f => f.sentiment == some (str "negative") && jsTruthy f.themes)).flatMap
    (fun f => (splitTrim (f.themes.getD [])).map (fun t => (t, f.urgency)))

/-- `getPainPoints` from `src/index.ts`.  Per theme, `count` is the number of
occurrences and the urgency list collects the truthy urgencies; severity is
`'high'` iff `urgency.filter(u => u === 'high').length > count / 2`, rendered
exactly as `2 · highs > count` (JS compares against the exact half). -/
def Main.getPainPoints (feedback : List FeedbackEntry) : List PainPoint :=
  let entries := tally (Main.ppPairs feedback)
  let rows := entries.map (fun e =>
    let urgencies := (e.2.filter jsTruthy).filterMap id
    { theme := e.1,
      count := e.2.length,
      severity :=
        if 2 * (urgencies.filter (fun u => u == str "high")).length > e.2.length then str "high"
        else str "medium" : PainPoint })
  (sortBy (fun a b => decide (b.count ≤ a.count)) rows).take 5

/-- `scores[f.sentiment] || 0` with `scores = {positive: 1, neutral: 0, negative: -1}`. -/
def scoreOf (s : Option Str) : ℤ :=
  if s == some (str "positive") then 1
  else if s == some (str "negative") then -1
  else 0

/-- The accumulator `total` of `calculateSentimentScore`:
`feedback.reduce((sum, f) => sum + (scores[f.sentiment] || 0), 0)`. -/
def Main.totalScore (feedback : List FeedbackEntry) : ℤ :=
  feedback.foldl (fun sum f => sum + scoreOf f.sentiment) 0

/-- `calculateSentimentScore` from `src/index.ts`:
`Math.round((total / feedback.length) * 100)` over exact arithmetic.
`Math.round q = ⌊q + 1/2⌋`, and for `len > 0`,
`⌊(100·total)/len + 1/2⌋ = (200·total + len) / (2·len)` with floor division
(proved as `jsRound_div` below). -/
def Main.calculateSentimentScore (feedback : List FeedbackEntry) : ℤ :=
  (200 * Main.totalScore feedback + feedback.length) / (2 * feedback.length)

/-- `highUrgency` in `generateActionItems`. -/
def Main.highUrgency (feedback : List FeedbackEntry) : Nat :=
  (feedback.filter (fun f => f.urgency == some (str "high"))).length

/-- `bugs` in `generateActionItems` (note: `f.themes?.includes('bug')` is a
substring test on the raw themes string). -/
def Main.bugs (feedback : List FeedbackEntry) : Nat :=
  (feedback.filter (fun f => optIncludes f.themes (str "bug"))).length

/-- `featureRequests` in `generateActionItems`. -/
def Main.featureRequests (feedback : List FeedbackEntry) : Nat :=
  (feedback.filter (fun f => optIncludes f.themes (str "feature-request"))).length

/-- `negative` in `generateActionItems`. -/
def Main.negative (feedback : List FeedbackEntry) : Nat :=
  (feedback.filter (fun f => f.sentiment == some (str "negative"))).length

/-- `performance` in `generateActionItems`. -/
def Main.performance (feedback : List FeedbackEntry) : Nat :=
  (feedback.filter (fun f => optIncludes f.themes (str "performance"))).length

/-- `documentation` in `generateActionItems`. -/
def Main.documentation (feedback : List FeedbackEntry) : Nat :=
  (feedback.filter (fun f => optIncludes f.themes (str "documentation"))).length

/-- `positiveRatio < 0.5`, i.e. `(length - negative) / length < 0.5`; for a
non-empty list this is exactly `2 · (length - negative) < length` (the ratio
0.5 and the comparison are exact in JS for these magnitudes). -/
def Main.sentimentTrendingNegative (feedback : List FeedbackEntry) : Bool :=
  2 * (feedback.length - Main.negative feedback) < feedback.length

/-- Rule-1 template: `🚨 ${highUrgency} high-urgency items need immediate attention`. -/
def itemHighUrgency (n : Nat) : Str :=
  str "🚨 " ++ numStr n ++ str " high-urgency items need immediate attention"

/-- Rule-2 template: `🐛 ${bugs} bug reports - consider allocating sprint capacity for stability work`. -/
def itemBugs (n : Nat) : Str :=
  str "🐛 " ++ numStr n ++ str " bug reports - consider allocating sprint capacity for stability work"

/-- Rule-3 template: `💡 ${featureRequests} feature requests - prioritize by customer impact and engineering effort`. -/
def itemFeatureRequests (n : Nat) : Str :=
  str "💡 " ++ numStr n ++ str " feature requests - prioritize by customer impact and engineering effort"

/-- Rule-4 text (no interpolation). -/
def itemTrendingNegative : Str :=
  str "📉 Customer sentiment is trending negative - schedule customer interviews to understand root causes"

/-- Rule-5 template: `⚡ ${performance} performance complaints - run performance audit and set optimization goals`. -/
def itemPerformance (n : Nat) : Str :=
  str "⚡ " ++ numStr n ++ str " performance complaints - run performance audit and set optimization goals"

/-- Rule-6 template: `📚 ${documentation} docs gaps identified - update documentation and consider tutorial videos`. -/
def itemDocumentation (n : Nat) : Str :=
  str "📚 " ++ numStr n ++ str " docs gaps identified - update documentation and consider tutorial videos"

/-- Rule-7 fallback text. -/
def itemNoCritical : Str :=
  str "✅ No critical issues detected - focus on feature development and user growth"

/-- `generateActionItems` from `src/index.ts`: six threshold rules pushing
recommendation strings in a fixed order, then a fallback when nothing fired. -/
def Main.generateActionItems (feedback : List FeedbackEntry) : List Str :=
  let items : List Str := []
  let items :=
    if Main.highUrgency feedback > 0 then
      items ++ [itemHighUrgency (Main.highUrgency feedback)]
    else items
  let items :=
    if Main.bugs feedback > 5 then
      items ++ [itemBugs (Main.bugs feedback)]
    else items
  let items :=
    if Main.featureRequests feedback > 3 then
      items ++ [itemFeatureRequests (Main.featureRequests feedback)]
    else items
  let items :=
    if Main.sentimentTrendingNegative feedback then
      items ++ [itemTrendingNegative]
    else items
  let items :=
    if Main.performance feedback > 2 then
      items ++ [itemPerformance (Main.performance feedback)]
    else items
  let items :=
    if Main.documentation feedback > 2 then
      items ++ [itemDocumentation (Main.documentation feedback)]
    else items
  let items :=
    if items.length = 0 then
      items ++ [itemNoCritical]
    else items
  items

/-- A `{theme, count, sentiment}` row of `themeBreakdown`. -/
structure ThemeRow where
  theme : Str
  count : Nat
  sentiment : Str
  deriving DecidableEq

/-- The `(theme, sentiment)` occurrences that `getThemeBreakdown` iterates
over: every entry with truthy `themes` (negative or not), one occurrence per
split-and-trimmed tag. -/
def Main.tbPairs (feedback : List FeedbackEntry) : List (Str × Option Str) :=
  (feedback.filter (fun f => jsTruthy f.themes)).flatMap
    (fun f => (splitTrim (f.themes.getD [])).map (fun t => (t, f.sentiment)))

/-- `getThemeBreakdown` from `src/index.ts`.  Per theme, `count` is the number
of occurrences and `negative` the number of negative-sentiment occurrences;
the row is tagged `'negative'` iff `negative > count / 2`, rendered exactly as
`2 · negative > count`. -/
def Main.getThemeBreakdown (feedback : List FeedbackEntry) : List ThemeRow :=
  let entries := tally (Main.tbPairs feedback)
  let rows := entries.map (fun e =>
    { theme := e.1,
      count := e.2.length,
      sentiment :=
        if 2 * (e.2.filter (fun s => s == some (str "negative"))).length > e.2.length then
          str "negative"
        else str "positive" : ThemeRow })
  (sortBy (fun a b => decide (b.count ≤ a.count)) rows).take 10

/-- `f.text.substring(0, 100) + '...'`, the text preview used by
`topPriorityIssues`, `topFeatureRequests` and `quickWins`. -/
def previewOf (t : Str) : Str := t.take 100 ++ str "..."

/-- A row of `topPriorityIssues`. -/
structure PriorityRow where
  text : Str
  source : Str
  themes : Option Str
  created_at : Nat
  deriving DecidableEq

/-- A row of `topFeatureRequests`. -/
structure FeatureRow where
  text : Str
  source : Str
  sentiment : Option Str
  deriving DecidableEq

/-- A row of `quickWins`. -/
structure WinRow where
  text : Str
  themes : Option Str
  source : Str
  deriving DecidableEq

/-- The `insights` object computed by `getInsights` in `src/index.ts`. -/
structure Insights where
  topPriorityIssues : List PriorityRow
  topFeatureRequests : List FeatureRow
  painPoints : List PainPoint
  quickWins : List WinRow
  sentimentScore : ℤ
  actionItems : List Str
  themeBreakdown : List ThemeRow
  deriving DecidableEq

/-- The body of `getInsights` after the empty check. -/
def Main.mkInsights (feedback : List FeedbackEntry) : Insights where
  topPriorityIssues :=
    ((feedback.filter (fun f =>
        f.urgency == some (str "high") && f.sentiment == some (str "negative"))).take 5).map
      (fun f => ⟨previewOf f.text, f.source, f.themes, f.created_at⟩)
  topFeatureRequests :=
    ((feedback.filter (fun f => optIncludes f.themes (str "feature-request"))).take 5).map
      (fun f => ⟨previewOf f.text, f.source, f.sentiment⟩)
  painPoints := Main.getPainPoints feedback
  quickWins :=
    ((feedback.filter (fun f => f.sentiment == some (str "positive"))).take 3).map
      (fun f => ⟨previewOf f.text, f.themes, f.source⟩)
  sentimentScore := Main.calculateSentimentScore feedback
  actionItems := Main.generateActionItems feedback
  themeBreakdown := Main.getThemeBreakdown feedback

/-- The response of `GET /api/insights`: either the empty-state sentinel (a
message plus an empty `insights` array, carried by `noData`) or the computed
structure. -/
inductive InsightsOut where
  | noData (message : Str)
  | data (insights : Insights)
  deriving DecidableEq

/-- The compute path of `getInsights` in `src/index.ts` (the cache-miss
branch): select analyzed rows most-recent-first, short-circuit to the
empty-state sentinel when there are none, otherwise build all derived fields. -/
def Main.getInsightsCore (rows : List FeedbackEntry) : InsightsOut :=
  let feedback :=
    sortBy (fun a b => decide (b.created_at ≤ a.created_at))
      (rows.filter (fun f => !(f.sentiment == none)))
  if feedback.length = 0 then
    .noData (str "No analyzed feedback yet. Click \"Analyze All Feedback\" first.")
  else
    .data (Main.mkInsights feedback)

/-- Server-side state seen by the handlers: the `feedback` table (with the
store's autoincrement counter) and the presence of the two KV cache keys.
`statsCached` / `insightsCached` record whether the keys `"stats"` /
`"insights"` currently hold a value; `CACHE.delete k` sets the flag to
`false`. -/
structure ServerState where
  rows : List FeedbackEntry
  nextId : Nat
  statsCached : Bool
  insightsCached : Bool
  deriving DecidableEq

/-- Outcome of `POST /api/feedback`. -/
inductive SubmitResult where
  | badRequest
  | created (entry : FeedbackEntry)
  deriving DecidableEq

/-- `submitFeedback` from `src/index.ts`: validate both fields truthy, insert
with store-assigned id and null labels, then delete the `"stats"` cache key
(and only that key). -/
def Main.submitFeedback (source text : Str) (now : Nat) (s : ServerState) :
    SubmitResult × ServerState :=
  if source.isEmpty || text.isEmpty then (.badRequest, s)
  else
    let entry : FeedbackEntry := ⟨s.nextId, source, text, none, none, none, now⟩
    (.created entry,
     { s with rows := s.rows ++ [entry], nextId := s.nextId + 1, statsCached := false })

/-- `body.sentiment || null`: an absent or empty-string field becomes `null`. -/
def jsOrNull (o : Option Str) : Option Str :=
  match o with
  | some s => if s.isEmpty then none else some s
  | none => none

/-- `submitFeedback` from `src/src/index.ts`: same validation; the insert also
passes through whatever label fields the request body carried (the two-field
API sends none), and deletes the `"stats"` cache key. -/
def Alt.submitFeedback (source text : Str) (sentiment themes urgency : Option Str)
    (now : Nat) (s : ServerState) : SubmitResult × ServerState :=
  if source.isEmpty || text.isEmpty then (.badRequest, s)
  else
    let entry : FeedbackEntry :=
      ⟨s.nextId, source, text, jsOrNull sentiment, jsOrNull themes, jsOrNull urgency, now⟩
    (.created entry,
     { s with rows := s.rows ++ [entry], nextId := s.nextId + 1, statsCached := false })

/-- Outcome of `POST /api/analyze/:id`. -/
inductive AnalyzeResult where
  | notFound
  | ok (id : Nat) (analysis : Analysis)
  deriving DecidableEq

/-- `UPDATE feedback SET sentiment = ?, themes = ?, urgency = ? WHERE id = ?`. -/
def applyAnalysis (rows : List FeedbackEntry) (id : Nat) (a : Analysis) :
    List FeedbackEntry :=
  rows.map (fun g =>
    if g.id == id then
      { g with sentiment := some a.sentiment, themes := some a.themes,
               urgency := some a.urgency }
    else g)

/-- `analyzeFeedback` from `src/index.ts`: fetch by id (404 when absent),
classify, persist the triple, then delete the `"stats"` cache key (and only
that key).  `ai` is the external model: the response text per input, `none`
when the call rejects. -/
def Main.analyzeFeedback (id : Nat) (ai : Str → Option Str) (s : ServerState) :
    AnalyzeResult × ServerState :=
  match s.rows.find? (fun f => f.id == id) with
  | none => (.notFound, s)
  | some f =>
    let analysis := Main.analyzeWithAI (ai f.text)
    (.ok id analysis,
     { s with rows := applyAnalysis s.rows id analysis, statsCached := false })

/-- `SELECT * FROM feedback WHERE sentiment IS NULL LIMIT 50`. -/
def selectUnanalyzed (rows : List FeedbackEntry) : List FeedbackEntry :=
  (rows.filter (fun f => f.sentiment == none)).take 50

/-- `results.slice(i, i + 5)` for `i = 0, 5, 10, ...`: the fixed-size groups
of the batch loop (structural recursion: five elements are split off as long
as more remain). -/
def chunks5 {α : Type} : List α → List (List α)
  | [] => []
  | a :: b :: c :: d :: e :: f :: rest => [a, b, c, d, e] :: chunks5 (f :: rest)
  | l => [l]

/-- One element of the `results` array returned by `src/index.ts`'s
`analyzeAllFeedback`: `{ id, ...analysis }`. -/
structure AnalyzedRow where
  id : Nat
  analysis : Analysis
  deriving DecidableEq

/-- The success response of `src/index.ts`'s `analyzeAllFeedback`. -/
structure BatchOut where
  analyzed : Nat
  results : List AnalyzedRow
  deriving DecidableEq

/-- The group loop of `analyzeAllFeedback` in `src/index.ts`.  Each group is
classified and persisted via `Promise.all`; `updFails id` says whether the
store update for that row rejects.  There is no per-item catch: all updates of
the group that succeed are applied (the promises run to completion), but if any
item of the group rejects, `await Promise.all` throws, later groups are never
processed, the cache keys are not deleted and the request fails (HTTP 500,
modelled as `Except.error`).  On full success both cache keys are deleted. -/
def Main.analyzeAllGo (ai : Str → Option Str) (updFails : Nat → Bool) :
    List (List FeedbackEntry) → ServerState → List AnalyzedRow →
    Except Unit BatchOut × ServerState
  | [], s, acc =>
    (.ok ⟨acc.length, acc⟩, { s with statsCached := false, insightsCached := false })
  | batch :: rest, s, acc =>
    let analyzed := batch.map (fun f => (f, Main.analyzeWithAI (ai f.text)))
    let newRows := analyzed.foldl
      (fun rows fa => if updFails fa.1.id then rows else applyAnalysis rows fa.1.id fa.2)
      s.rows
    let s' := { s with rows := newRows }
    if batch.any (fun f => updFails f.id) then (.error (), s')
    else Main.analyzeAllGo ai updFails rest s' (acc ++ analyzed.map (fun fa => ⟨fa.1.id, fa.2⟩))

/-- `analyzeAllFeedback` from `src/index.ts`. -/
def Main.analyzeAllFeedback (ai : Str → Option Str) (updFails : Nat → Bool)
    (s : ServerState) : Except Unit BatchOut × ServerState :=
  Main.analyzeAllGo ai updFails (chunks5 (selectUnanalyzed s.rows)) s []

/-- One element of the `results` array of `src/src/index.ts`'s
`analyzeAllFeedback` (the failure variant also carries an error message, which
the model drops). -/
structure AltItemRes where
  id : Nat
  success : Bool
  deriving DecidableEq

/-- The response of `src/src/index.ts`'s `analyzeAllFeedback`. -/
inductive AltBatchOut where
  | noneUnanalyzed
  | done (total successful failed : Nat) (results : List AltItemRes)
  deriving DecidableEq

/-- The per-item `try/catch` body of `src/src/index.ts`'s batch loop: a
classification failure or a store-update failure is caught and recorded as
`{id, success: false}`. -/
def Alt.itemResult (ai : Str → Option Str) (updFails : Nat → Bool)
    (f : FeedbackEntry) : AltItemRes :=
  match Alt.analyzeWithAI (ai f.text) with
  | .error _ => ⟨f.id, false⟩
  | .ok _ => if updFails f.id then ⟨f.id, false⟩ else ⟨f.id, true⟩

/-- The store effect of one item of `src/src/index.ts`'s batch loop: the update
is applied only when both the classification and the persistence succeed. -/
def Alt.itemUpdate (ai : Str → Option Str) (updFails : Nat → Bool)
    (rows : List FeedbackEntry) (f : FeedbackEntry) : List FeedbackEntry :=
  match Alt.analyzeWithAI (ai f.text) with
  | .error _ => rows
  | .ok a => if updFails f.id then rows else applyAnalysis rows f.id a

/-- `analyzeAllFeedback` from `src/src/index.ts`: early return when nothing is
unanalyzed; otherwise every selected row is processed in groups of 5 (the
grouping only bounds concurrency: each item's outcome and update depend on that
item alone, and the per-item `try/catch` means no failure aborts anything),
results are concatenated in order, the `"stats"` key is deleted and a summary
is returned. -/
def Alt.analyzeAllFeedback (ai : Str → Option Str) (updFails : Nat → Bool)
    (s : ServerState) : AltBatchOut × ServerState :=
  let sel := selectUnanalyzed s.rows
  if sel.isEmpty then (.noneUnanalyzed, s)
  else
    let results := (chunks5 sel).flatten.map (Alt.itemResult ai updFails)
    let rows' := (chunks5 sel).flatten.foldl (Alt.itemUpdate ai updFails) s.rows
    (.done results.length (results.countP (fun r => r.success))
        (results.countP (fun r => !r.success)) results,
     { s with rows := rows', statsCached := false })

/-- The effect of one batch item of `src/src/index.ts` on one row of the
table: `Alt.itemUpdate ai updFails rows f = rows.map (Alt.rowUpd ai updFails f)`
(proved as `itemUpdate_eq_map` below).  Used to reason about the sequence of
`UPDATE ... WHERE id = ?` statements row by row. -/
def Alt.rowUpd (ai : Str → Option Str) (updFails : Nat → Bool) (f : FeedbackEntry)
    (g : FeedbackEntry) : FeedbackEntry :=
  match Alt.analyzeWithAI (ai f.text) with
  | .error _ => g
  | .ok a =>
    if updFails f.id then g
    else if g.id == f.id then
      { g with sentiment := some a.sentiment, themes := some a.themes,
               urgency := some a.urgency }
    else g

/-- Fixture: an analyzed high-urgency negative bug report (spec scenario). -/
def sampleNeg1 : FeedbackEntry :=
  ⟨1, str "app", str "crash on login", some (str "negative"), some (str "bug"),
   some (str "high"), 10⟩

/-- Fixture: a second analyzed high-urgency negative bug report. -/
def sampleNeg2 : FeedbackEntry :=
  ⟨2, str "web", str "slow dashboards", some (str "negative"), some (str "bug"),
   some (str "high"), 9⟩

/-- Fixture: an analyzed low-urgency positive entry. -/
def samplePos : FeedbackEntry :=
  ⟨3, str "web", str "love the new ux!", some (str "positive"), some (str "ux"),
   some (str "low"), 8⟩

/-- Fixture: the three-entry analyzed set of the spec scenario
(`2 × {high, negative, bug}` plus `1 × {low, positive, ux}`). -/
def sampleAnalyzed : List FeedbackEntry := [sampleNeg1, sampleNeg2, samplePos]

/-- Fixture: an unanalyzed row. -/
def sampleUn1 : FeedbackEntry := ⟨1, str "email", str "first note", none, none, none, 0⟩

/-- Fixture: a second unanalyzed row. -/
def sampleUn2 : FeedbackEntry := ⟨2, str "email", str "second note", none, none, none, 1⟩

/-- Fixture: a server state with two unanalyzed rows and both cache keys
present. -/
def sampleState : ServerState := ⟨[sampleUn1, sampleUn2], 3, true, true⟩

/-! ### Helper lemmas: the insertion sort -/

theorem insertSorted_perm {α : Type} (le : α → α → Bool) (a : α) (l : List α) :
    (insertSorted le a l).Perm (a :: l) := by
  induction l with
  | nil => simp [insertSorted]
  | cons b bs ih =>
    rw [insertSorted]
    split
    · exact (ih.cons b).trans (List.Perm.swap a b bs)
    · exact List.Perm.refl _

theorem sortBy_perm_aux {α : Type} (le : α → α → Bool) (l acc : List α) :
    (l.foldl (fun acc a => insertSorted le a acc) acc).Perm (acc ++ l) := by
  induction l generalizing acc with
  | nil => simp
  | cons a as ih =>
    refine (ih (insertSorted le a acc)).trans ?_
    have h1 : (insertSorted le a acc ++ as).Perm ((a :: acc) ++ as) :=
      (insertSorted_perm le a acc).append_right as
    exact h1.trans List.perm_middle.symm

theorem sortBy_perm {α : Type} (le : α → α → Bool) (l : List α) :
    (sortBy le l).Perm l := by
  simpa [sortBy] using sortBy_perm_aux le l []

theorem insertSorted_pairwise {α : Type} {le : α → α → Bool}
    (htot : ∀ x y, le x y = true ∨ le y x = true)
    (htrans : ∀ x y z, le x y = true → le y z = true → le x z = true)
    (a : α) {l : List α} (hl : l.Pairwise (fun x y => le x y = true)) :
    (insertSorted le a l).Pairwise (fun x y => le x y = true) := by
  induction l with
  | nil => simp [insertSorted]
  | cons b bs ih =>
    rcases List.pairwise_cons.mp hl with ⟨hb, hbs⟩
    rw [insertSorted]
    split
    · next hba =>
      refine List.pairwise_cons.mpr ⟨?_, ih hbs⟩
      intro x hx
      rcases List.mem_cons.mp ((insertSorted_perm le a bs).mem_iff.mp hx) with hx | hx
      · subst hx; exact hba
      · exact hb x hx
    · next hba =>
      have hab : le a b = true := by
        rcases htot a b with h | h
        · exact h
        · exact absurd h hba
      refine List.pairwise_cons.mpr ⟨?_, hl⟩
      intro x hx
      rcases List.mem_cons.mp hx with hx | hx
      · subst hx; exact hab
      · exact htrans a b x hab (hb x hx)

theorem sortBy_pairwise_aux {α : Type} {le : α → α → Bool}
    (htot : ∀ x y, le x y = true ∨ le y x = true)
    (htrans : ∀ x y z, le x y = true → le y z = true → le x z = true)
    (l : List α) {acc : List α} (hacc : acc.Pairwise (fun x y => le x y = true)) :
    (l.foldl (fun acc a => insertSorted le a acc) acc).Pairwise (fun x y => le x y = true) := by
  induction l generalizing acc with
  | nil => exact hacc
  | cons a as ih => exact ih (insertSorted_pairwise htot htrans a hacc)

theorem sortBy_pairwise {α : Type} {le : α → α → Bool}
    (htot : ∀ x y, le x y = true ∨ le y x = true)
    (htrans : ∀ x y z, le x y = true → le y z = true → le x z = true)
    (l : List α) :
    (sortBy le l).Pairwise (fun x y => le x y = true) :=
  sortBy_pairwise_aux htot htrans l List.Pairwise.nil

/-! ### Helper lemmas: the occurrence table -/

theorem tally_snoc {β : Type} (ps : List (Str × β)) (p : Str × β) :
    tally (ps ++ [p]) = addOcc p.1 p.2 (tally ps) := by
  simp [tally, List.foldl_append]

theorem occKeys_snoc {β : Type} (ps : List (Str × β)) (p : Str × β) :
    occKeys (ps ++ [p]) =
      if p.1 ∈ occKeys ps then occKeys ps else occKeys ps ++ [p.1] := by
  simp [occKeys, List.foldl_append]

theorem occKeys_mem {β : Type} (ps : List (Str × β)) :
    ∀ k, k ∈ occKeys ps ↔ k ∈ ps.map Prod.fst := by
  induction ps using List.reverseRecOn with
  | nil => simp [occKeys]
  | append_singleton ps p ih =>
    intro k
    rw [occKeys_snoc]
    by_cases hp : p.1 ∈ occKeys ps
    · rw [if_pos hp]
      simp only [List.map_append, List.map_cons, List.map_nil, List.mem_append,
        List.mem_singleton]
      constructor
      · intro h
        exact Or.inl ((ih k).mp h)
      · rintro (h | rfl)
        · exact (ih k).mpr h
        · exact hp
    · rw [if_neg hp]
      simp only [List.mem_append, List.map_append, List.map_cons, List.map_nil,
        List.mem_singleton, ih k]

theorem occKeys_nodup {β : Type} (ps : List (Str × β)) : (occKeys ps).Nodup := by
  induction ps using List.reverseRecOn with
  | nil => simp [occKeys]
  | append_singleton ps p ih =>
    rw [occKeys_snoc]
    by_cases hp : p.1 ∈ occKeys ps
    · rw [if_pos hp]
      exact ih
    · rw [if_neg hp]
      refine List.Nodup.append ih (List.nodup_singleton p.1) ?_
      intro x hx hx1
      rw [List.mem_singleton] at hx1
      subst hx1
      exact hp hx

theorem addOcc_not_mem {β : Type} (k : Str) (v : β) (l : List (Str × List β))
    (h : ∀ e ∈ l, e.1 ≠ k) : addOcc k v l = l ++ [(k, [v])] := by
  induction l with
  | nil => rfl
  | cons e es ih =>
    rw [addOcc]
    rw [if_neg (h e (List.mem_cons_self e es))]
    rw [ih (fun e' he' => h e' (List.mem_cons_of_mem e he'))]
    rfl

theorem addOcc_mem_nodup {β : Type} (k : Str) (v : β) (l : List (Str × List β))
    (hnd : (l.map Prod.fst).Nodup) (hk : k ∈ l.map Prod.fst) :
    addOcc k v l = l.map (fun e => if e.1 = k then (e.1, e.2 ++ [v]) else e) := by
  induction l with
  | nil => simp at hk
  | cons e es ih =>
    rw [List.map_cons, List.nodup_cons] at hnd
    rw [addOcc]
    by_cases he : e.1 = k
    · rw [if_pos he]
      have hes : es.map (fun e' => if e'.1 = k then (e'.1, e'.2 ++ [v]) else e') = es := by
        have : ∀ e' ∈ es, (if e'.1 = k then (e'.1, e'.2 ++ [v]) else e') = id e' := by
          intro e' he'
          have hne : e'.1 ≠ k := by
            intro hek
            refine hnd.1 ?_
            have hm := List.mem_map_of_mem Prod.fst he'
            rwa [hek, ← he] at hm
          simp [hne]
        rw [List.map_congr_left this, List.map_id]
      simp [he, hes]
    · rw [if_neg he]
      have hk' : k ∈ es.map Prod.fst := by
        rcases List.mem_cons.mp hk with h | h
        · exact absurd h.symm he
        · exact h
      simp [he, ih hnd.2 hk']

theorem tally_spec {β : Type} (ps : List (Str × β)) :
    tally ps =
      (occKeys ps).map (fun k => (k, (ps.filter (fun q => q.1 == k)).map Prod.snd)) := by
  induction ps using List.reverseRecOn with
  | nil => rfl
  | append_singleton ps p ih =>
    rw [tally_snoc, occKeys_snoc, ih]
    have hkeys : ((occKeys ps).map
        (fun k => (k, (ps.filter (fun q => q.1 == k)).map Prod.snd))).map Prod.fst
          = occKeys ps := by
      rw [List.map_map]
      exact List.map_id _
    have hsingle : ∀ k : Str, k ≠ p.1 → (List.filter (fun q => q.1 == k) [p]) = [] := by
      intro k hkp
      rw [List.filter_eq_nil_iff]
      intro q hq
      rw [List.mem_singleton] at hq
      subst hq
      simp only [beq_iff_eq]
      intro h
      exact hkp h.symm
    by_cases hp : p.1 ∈ occKeys ps
    · rw [if_pos hp]
      rw [addOcc_mem_nodup p.1 p.2 _ (by rw [hkeys]; exact occKeys_nodup ps)
        (by rw [hkeys]; exact hp)]
      rw [List.map_map]
      apply List.map_congr_left
      intro k hk
      simp only [Function.comp_apply]
      by_cases hkp : k = p.1
      · subst hkp
        rw [if_pos rfl]
        simp [List.filter_append]
      · rw [if_neg (by simpa using hkp)]
        simp [List.filter_append, hsingle k hkp]
    · rw [if_neg hp]
      rw [addOcc_not_mem p.1 p.2 _ (by
        intro e he
        rcases List.mem_map.mp he with ⟨k, hk, rfl⟩
        intro hkp
        simp only at hkp
        exact hp (hkp ▸ hk))]
      rw [List.map_append]
      congr 1
      · apply List.map_congr_left
        intro k hk
        have hkp : k ≠ p.1 := fun h => hp (h ▸ hk)
        simp [List.filter_append, hsingle k hkp]
      · have hnil : ps.filter (fun q => q.1 == p.1) = [] := by
          rw [List.filter_eq_nil_iff]
          intro q hq
          simp only [beq_iff_eq]
          intro hq1
          exact hp ((occKeys_mem ps p.1).mpr (hq1 ▸ List.mem_map_of_mem Prod.fst hq))
        simp [List.filter_append, hnil]

theorem tally_mem {β : Type} {ps : List (Str × β)} {e : Str × List β}
    (he : e ∈ tally ps) :
    e.2 = (ps.filter (fun q => q.1 == e.1)).map Prod.snd := by
  rw [tally_spec] at he
  rcases List.mem_map.mp he with ⟨k, _, rfl⟩
  rfl

/-! ### Helper lemmas: chunking, splitting, trimming, counting -/

theorem chunks5_flatten {α : Type} : ∀ l : List α, (chunks5 l).flatten = l
  | [] => rfl
  | [_] => rfl
  | [_, _] => rfl
  | [_, _, _] => rfl
  | [_, _, _, _] => rfl
  | [_, _, _, _, _] => rfl
  | a :: b :: c :: d :: e :: f :: rest => by
    simp [chunks5, chunks5_flatten (f :: rest)]

theorem splitOnChar_ne_nil (sep : Char) (s : Str) : splitOnChar sep s ≠ [] := by
  cases s with
  | nil => simp [splitOnChar]
  | cons c cs =>
    rw [splitOnChar]
    split
    · simp
    · split <;> simp

theorem splitOnChar_not_mem {sep : Char} : ∀ {s piece : Str},
    piece ∈ splitOnChar sep s → sep ∉ piece := by
  intro s
  induction s with
  | nil =>
    intro piece h
    rw [splitOnChar, List.mem_singleton] at h
    subst h
    simp
  | cons c cs ih =>
    intro piece h
    rw [splitOnChar] at h
    by_cases hc : c = sep
    · rw [if_pos hc] at h
      rcases List.mem_cons.mp h with rfl | h
      · simp
      · exact ih h
    · rw [if_neg hc] at h
      rcases hsc : splitOnChar sep cs with _ | ⟨s0, ss⟩
      · exact absurd hsc (splitOnChar_ne_nil sep cs)
      · rw [hsc] at h
        rcases List.mem_cons.mp h with rfl | h
        · intro hmem
          rcases List.mem_cons.mp hmem with rfl | hmem
          · exact hc rfl
          · have hs0 : s0 ∈ splitOnChar sep cs := by
              rw [hsc]
              exact List.mem_cons_self s0 ss
            exact ih hs0 hmem
        · have hpm : piece ∈ splitOnChar sep cs := by
            rw [hsc]
            exact List.mem_cons_of_mem s0 h
          exact ih hpm

theorem mem_of_mem_trimStr {c : Char} {s : Str} (h : c ∈ trimStr s) : c ∈ s := by
  unfold trimStr at h
  rw [List.mem_reverse] at h
  have h1 := (List.dropWhile_sublist _).subset h
  rw [List.mem_reverse] at h1
  exact (List.dropWhile_sublist _).subset h1

theorem splitTrim_no_comma {s t : Str} (h : t ∈ splitTrim s) : ',' ∉ t := by
  rcases List.mem_map.mp h with ⟨piece, hp, rfl⟩
  intro hc
  exact splitOnChar_not_mem hp (mem_of_mem_trimStr hc)

/-- The urgency-list counting inside `getPainPoints`: pushing only truthy
urgencies and then filtering for `'high'` counts exactly the occurrences whose
value is `some "high"`. -/
theorem high_filter_count (l : List (Option Str)) :
    ((((l.filter jsTruthy).filterMap id).filter (fun u => u == str "high"))).length
      = l.countP (fun v => v == some (str "high")) := by
  induction l with
  | nil => rfl
  | cons v vs ih =>
    rcases v with _ | s
    · simpa [jsTruthy, List.countP_cons] using ih
    · rcases s with _ | ⟨c, cs⟩
      · have hb : ((some ([] : Str) : Option Str) == some (str "high")) = false := by decide
        simp [jsTruthy, List.countP_cons, ih, hb]
      · by_cases h : (c :: cs : Str) = str "high"
        · have hne : ((str "high" : Str).isEmpty) = false := by decide
          simp [jsTruthy, List.filter_cons, List.filterMap_cons, List.countP_cons, ih, h, hne]
        · have hb : ((c :: cs : Str) == str "high") = false := by
            simp [h]
          have hb2 : ((some (c :: cs) : Option Str) == some (str "high")) = false := by
            simp [h]
          simp [jsTruthy, List.filter_cons, List.filterMap_cons, List.countP_cons, hb, hb2, ih]

/-- `countP` over the per-key value list extracted by `tally_spec`. -/
theorem countP_map_snd_filter {β : Type} (ps : List (Str × β)) (k : Str) (p : β → Bool) :
    ((ps.filter (fun q => q.1 == k)).map Prod.snd).countP p
      = ps.countP (fun q => p q.2 && q.1 == k) := by
  rw [List.countP_map, List.countP_filter]
  rfl

theorem length_map_snd_filter {β : Type} (ps : List (Str × β)) (k : Str) :
    ((ps.filter (fun q => q.1 == k)).map Prod.snd).length
      = ps.countP (fun q => q.1 == k) := by
  rw [List.length_map, ← List.countP_eq_length_filter]

/-! ### Helper lemmas: sentiment score arithmetic -/

theorem scoreOf_bounds (s : Option Str) : -1 ≤ scoreOf s ∧ scoreOf s ≤ 1 := by
  unfold scoreOf
  split_ifs <;> constructor <;> decide

theorem totalScore_fold_bounds :
    ∀ (feedback : List FeedbackEntry) (init : ℤ),
      init - feedback.length ≤ feedback.foldl (fun sum f => sum + scoreOf f.sentiment) init ∧
      feedback.foldl (fun sum f => sum + scoreOf f.sentiment) init ≤ init + feedback.length := by
  intro feedback
  induction feedback with
  | nil => intro init; simp
  | cons f fs ih =>
    intro init
    rcases ih (init + scoreOf f.sentiment) with ⟨h1, h2⟩
    rcases scoreOf_bounds f.sentiment with ⟨hs1, hs2⟩
    simp only [List.foldl_cons, List.length_cons]
    constructor <;> push_cast <;> omega

theorem totalScore_bounds (feedback : List FeedbackEntry) :
    -(feedback.length : ℤ) ≤ Main.totalScore feedback ∧
      Main.totalScore feedback ≤ feedback.length := by
  rcases totalScore_fold_bounds feedback 0 with ⟨h1, h2⟩
  unfold Main.totalScore
  omega

/-- `Math.round((t / n) * 100)` over exact rationals equals the integer
rendering used by `Main.calculateSentimentScore`. -/
theorem jsRound_div (t : ℤ) (n : ℕ) (hn : 0 < n) :
    (200 * t + n) / (2 * (n : ℤ)) = ⌊(100 * (t : ℚ)) / (n : ℚ) + 1/2⌋ := by
  have hn0 : (n : ℚ) ≠ 0 := by
    exact_mod_cast hn.ne'
  have h1 : (100 * (t : ℚ)) / (n : ℚ) + 1/2
      = ((200 * t + n : ℤ) : ℚ) / ((2 * n : ℕ) : ℚ) := by
    field_simp
    ring
  rw [h1, Rat.floor_intCast_div_natCast]
  push_cast
  rfl

/-! ### Helper lemmas: the batch loop of src/src/index.ts -/

theorem itemUpdate_eq_map (ai : Str → Option Str) (updFails : Nat → Bool)
    (rows : List FeedbackEntry) (f : FeedbackEntry) :
    Alt.itemUpdate ai updFails rows f = rows.map (Alt.rowUpd ai updFails f) := by
  unfold Alt.itemUpdate Alt.rowUpd
  cases h : Alt.analyzeWithAI (ai f.text) with
  | error e => simp
  | ok a =>
    by_cases hu : updFails f.id
    · simp [hu]
    · simp [hu, applyAnalysis]

theorem foldl_map_eq_map_foldl {α β : Type} (h : β → α → α) :
    ∀ (sel : List β) (rows : List α),
      sel.foldl (fun acc b => acc.map (h b)) rows
        = rows.map (fun a => sel.foldl (fun x b => h b x) a) := by
  intro sel
  induction sel with
  | nil =>
    intro rows
    simp
  | cons b bs ih =>
    intro rows
    simp only [List.foldl_cons]
    rw [ih (rows.map (h b)), List.map_map]
    rfl

theorem alt_fold_rows (ai : Str → Option Str) (updFails : Nat → Bool)
    (sel rows : List FeedbackEntry) :
    sel.foldl (Alt.itemUpdate ai updFails) rows
      = rows.map (fun g => sel.foldl (fun x f => Alt.rowUpd ai updFails f x) g) := by
  have hfun : Alt.itemUpdate ai updFails
      = fun rows f => rows.map (Alt.rowUpd ai updFails f) := by
    funext rows f
    exact itemUpdate_eq_map ai updFails rows f
  rw [hfun]
  exact foldl_map_eq_map_foldl _ sel rows

theorem fold_rowUpd_noop (ai : Str → Option Str) (updFails : Nat → Bool) :
    ∀ (sel : List FeedbackEntry) (g : FeedbackEntry),
      (∀ f ∈ sel, f.id ≠ g.id) →
      sel.foldl (fun x f => Alt.rowUpd ai updFails f x) g = g := by
  intro sel
  induction sel with
  | nil =>
    intro g _
    rfl
  | cons f fs ih =>
    intro g hg
    simp only [List.foldl_cons]
    have hf : Alt.rowUpd ai updFails f g = g := by
      unfold Alt.rowUpd
      cases h : Alt.analyzeWithAI (ai f.text) with
      | error e => rfl
      | ok a =>
        by_cases hu : updFails f.id
        · simp [hu]
        · have hid : (g.id == f.id) = false := by
            rw [beq_eq_false_iff_ne]
            exact fun he => hg f (List.mem_cons_self f fs) he.symm
          simp [hu, hid]
    rw [hf]
    exact ih g (fun f' hf' => hg f' (List.mem_cons_of_mem f hf'))

theorem fold_rowUpd_hit (ai : Str → Option Str) (updFails : Nat → Bool) :
    ∀ (sel : List FeedbackEntry) (f : FeedbackEntry) (a : Analysis),
      f ∈ sel → (sel.map (fun x => x.id)).Nodup →
      Alt.analyzeWithAI (ai f.text) = .ok a → updFails f.id = false →
      sel.foldl (fun x g => Alt.rowUpd ai updFails g x) f =
        { f with sentiment := some a.sentiment, themes := some a.themes,
                 urgency := some a.urgency } := by
  intro sel
  induction sel with
  | nil =>
    intro f a h
    simp at h
  | cons f' fs ih =>
    intro f a hmem hnd hok hu
    rw [List.map_cons, List.nodup_cons] at hnd
    simp only [List.foldl_cons]
    rcases List.mem_cons.mp hmem with rfl | hmem'
    · have hstep : Alt.rowUpd ai updFails f f =
          { f with sentiment := some a.sentiment, themes := some a.themes,
                   urgency := some a.urgency } := by
        unfold Alt.rowUpd
        rw [hok]
        simp [hu]
      rw [hstep]
      apply fold_rowUpd_noop
      intro f'' hf'' he
      exact hnd.1 (he ▸ List.mem_map_of_mem (fun x => x.id) hf'')
    · have hstep : Alt.rowUpd ai updFails f' f = f := by
        unfold Alt.rowUpd
        cases h : Alt.analyzeWithAI (ai f'.text) with
        | error e => rfl
        | ok a' =>
          by_cases hu' : updFails f'.id
          · simp [hu']
          · have hid : (f.id == f'.id) = false := by
              rw [beq_eq_false_iff_ne]
              intro he
              exact hnd.1 (he ▸ List.mem_map_of_mem (fun x => x.id) hmem')
            simp [hu', hid]
      rw [hstep]
      exact ih f a hmem' hnd.2 hok hu

/-! ### Validation helper -/

theorem mem_validate {v : List Str} {d : Str} (hd : d ∈ v) (x : Str) :
    (if v.contains x then x else d) ∈ v := by
  split
  · next h => simpa using h
  · exact hd

/-! ### Claim theorems -/

/-- C1: the claim states that every write operation (`submitFeedback`,
`analyzeFeedback`, `analyzeAllFeedback`) deletes both cache keys `"stats"` and
`"insights"` before returning.  The code violates this: starting from a state
with both keys cached, `submitFeedback` and `analyzeFeedback` delete only
`"stats"` and leave `"insights"` cached (so a re-analysis can be followed by a
served stale cached insights payload), while `analyzeAllFeedback` deletes
both.  This theorem evaluates all three handlers at the failing input. -/
theorem c1_cache_invalidation_bug :
    (Main.submitFeedback (str "github") (str "hello") 5 sampleState).2.statsCached = false
    ∧ (Main.submitFeedback (str "github") (str "hello") 5 sampleState).2.insightsCached = true
    ∧ (Main.analyzeFeedback 1 (fun _ => none) sampleState).2.statsCached = false
    ∧ (Main.analyzeFeedback 1 (fun _ => none) sampleState).2.insightsCached = true
    ∧ (Main.analyzeAllFeedback (fun _ => none) (fun _ => false) sampleState).2.statsCached = false
    ∧ (Main.analyzeAllFeedback (fun _ => none) (fun _ => false) sampleState).2.insightsCached
        = false := by
  decide

/-- C2 (counterexample): in `src/index.ts`'s `analyzeAllFeedback` there is no
per-item catch, so with two unanalyzed rows in one group and a persistence
failure for row 1 only, the whole batch call fails (HTTP 500) instead of
recording a per-item failure and returning a result — and the cache is not
invalidated either. -/
theorem c2_counterexample :
    (Main.analyzeAllFeedback (fun _ => none) (fun i => i == 1) sampleState).1 = .error ()
    ∧ (Main.analyzeAllFeedback (fun _ => none) (fun i => i == 1) sampleState).2.statsCached
        = true := by
  decide

/-- C2 (amended): in `src/src/index.ts`'s `analyzeAllFeedback` the claimed
behaviour holds.  For every store with at least one unanalyzed row and
store-wide unique ids, whatever the classifier and the persistence failures
do: the call returns a `done` summary over the whole selection (never a
failure), the results list covers exactly the selected ids in order, every
item whose persistence or classification failed is recorded as a per-item
failure, and every other item is persisted with its own triple. -/
theorem c2_batch_failure_isolation (ai : Str → Option Str) (updFails : Nat → Bool)
    (s : ServerState)
    (hsel : selectUnanalyzed s.rows ≠ [])
    (hnd : (s.rows.map (fun f => f.id)).Nodup) :
    ∃ results : List AltItemRes,
      (Alt.analyzeAllFeedback ai updFails s).1
        = .done (selectUnanalyzed s.rows).length
            (results.countP (fun r => r.success)) (results.countP (fun r => !r.success)) results
      ∧ results.map (fun r => r.id) = (selectUnanalyzed s.rows).map (fun f => f.id)
      ∧ (∀ f ∈ selectUnanalyzed s.rows,
          updFails f.id = true ∨ Alt.analyzeWithAI (ai f.text) = .error () →
          (⟨f.id, false⟩ : AltItemRes) ∈ results)
      ∧ (∀ f ∈ selectUnanalyzed s.rows, ∀ a : Analysis,
          Alt.analyzeWithAI (ai f.text) = .ok a → updFails f.id = false →
          { f with sentiment := some a.sentiment, themes := some a.themes,
                   urgency := some a.urgency } ∈ (Alt.analyzeAllFeedback ai updFails s).2.rows) := by
  have hempty : (selectUnanalyzed s.rows).isEmpty = false := by
    simpa using hsel
  have hselsub : selectUnanalyzed s.rows ⊆ s.rows := by
    intro f hf
    exact (List.filter_sublist _).subset (List.take_subset _ _ hf)
  have hselnd : ((selectUnanalyzed s.rows).map (fun f => f.id)).Nodup := by
    have hsl : (selectUnanalyzed s.rows).Sublist s.rows :=
      (List.take_sublist _ _).trans (List.filter_sublist _)
    exact hnd.sublist (hsl.map (fun f => f.id))
  refine ⟨(selectUnanalyzed s.rows).map (Alt.itemResult ai updFails), ?_, ?_, ?_, ?_⟩
  · simp only [Alt.analyzeAllFeedback, hempty, Bool.false_eq_true, if_false,
      chunks5_flatten, List.length_map]
  · rw [List.map_map]
    apply List.map_congr_left
    intro f hf
    simp only [Function.comp_apply, Alt.itemResult]
    cases h : Alt.analyzeWithAI (ai f.text) with
    | error e => rfl
    | ok a =>
      by_cases hu : updFails f.id
      · simp [hu]
      · simp [hu]
  · intro f hf hfail
    refine List.mem_map.mpr ⟨f, hf, ?_⟩
    unfold Alt.itemResult
    cases h : Alt.analyzeWithAI (ai f.text) with
    | error e => rfl
    | ok a =>
      rcases hfail with hu | herr
      · simp [hu]
      · rw [h] at herr
        cases herr
  · intro f hf a hok hu
    have hrows : (Alt.analyzeAllFeedback ai updFails s).2.rows
        = s.rows.map (fun g =>
            (selectUnanalyzed s.rows).foldl (fun x f' => Alt.rowUpd ai updFails f' x) g) := by
      simp only [Alt.analyzeAllFeedback, hempty, Bool.false_eq_true, if_false,
        chunks5_flatten]
      exact alt_fold_rows ai updFails _ s.rows
    rw [hrows]
    refine List.mem_map.mpr ⟨f, hselsub hf, ?_⟩
    exact fold_rowUpd_hit ai updFails (selectUnanalyzed s.rows) f a hf hselnd hok hu

/-- C2 (witness): the amended theorem applied to a concrete store of two
unanalyzed rows where persistence fails for id 1: the hypotheses hold and the
batch still returns per-item results. -/
theorem c2_batch_failure_isolation_witness :
    (selectUnanalyzed sampleState.rows ≠ []
      ∧ (sampleState.rows.map (fun f => f.id)).Nodup)
    ∧ (∃ results : List AltItemRes,
      (Alt.analyzeAllFeedback (fun _ => some (str "x")) (fun i => i == 1) sampleState).1
        = .done (selectUnanalyzed sampleState.rows).length
            (results.countP (fun r => r.success)) (results.countP (fun r => !r.success)) results
      ∧ results.map (fun r => r.id) = (selectUnanalyzed sampleState.rows).map (fun f => f.id)
      ∧ (∀ f ∈ selectUnanalyzed sampleState.rows,
          (fun i => i == 1) f.id = true
            ∨ Alt.analyzeWithAI ((fun _ => some (str "x")) f.text) = .error () →
          (⟨f.id, false⟩ : AltItemRes) ∈ results)
      ∧ (∀ f ∈ selectUnanalyzed sampleState.rows, ∀ a : Analysis,
          Alt.analyzeWithAI ((fun _ => some (str "x")) f.text) = .ok a
            → (fun i => i == 1) f.id = false →
          { f with sentiment := some a.sentiment, themes := some a.themes,
                   urgency := some a.urgency }
            ∈ (Alt.analyzeAllFeedback (fun _ => some (str "x")) (fun i => i == 1)
                sampleState).2.rows)) :=
  ⟨⟨by decide, by decide⟩,
   c2_batch_failure_isolation (fun _ => some (str "x")) (fun i => i == 1) sampleState
     (by decide) (by decide)⟩

/-- C3 (counterexample): the claim says the label extractor never propagates a
failure of the external classification call to its caller.  The
`src/src/index.ts` extractor (cited by the claim) has no `try/catch`: when the
external call rejects, the failure propagates. -/
theorem c3_counterexample : Alt.analyzeWithAI none = .error () := rfl

/-- C3 (amended): the `src/index.ts` extractor satisfies the claim in full —
it is a total function, an external-call failure yields the all-defaults
triple (`neutral` / `general` / `medium`), each of the three fields is
validated against its closed vocabulary independently, and a per-field parse
failure defaults only that field.  The `src/src/index.ts` extractor defaults
and validates per field (`neutral` / empty / `normal`) and never fails on a
parsable response, but a failure of the external call itself propagates. -/
theorem c3_extractor_defaults :
    Main.analyzeWithAI none = ⟨str "neutral", str "general", str "medium"⟩
    ∧ (∀ r : Str,
        (Main.analyzeWithAI (some r)).sentiment
            ∈ [str "positive", str "negative", str "neutral"]
        ∧ (Main.analyzeWithAI (some r)).urgency ∈ [str "low", str "medium", str "high"])
    ∧ (∀ r : Str, scanSentiment (trimStr r) = none →
        (Main.analyzeWithAI (some r)).sentiment = str "neutral")
    ∧ (∀ r : Str, scanThemes (trimStr r) = none →
        (Main.analyzeWithAI (some r)).themes = str "general")
    ∧ (∀ r : Str, scanUrgency (trimStr r) = none →
        (Main.analyzeWithAI (some r)).urgency = str "medium")
    ∧ Alt.analyzeWithAI none = .error ()
    ∧ (∀ r : Str, ∃ a : Analysis, Alt.analyzeWithAI (some r) = .ok a
        ∧ a.sentiment ∈ [str "positive", str "negative", str "neutral"]
        ∧ a.urgency ∈ [str "urgent", str "normal", str "low"]) := by
  refine ⟨rfl, ?_, ?_, ?_, ?_, rfl, ?_⟩
  · intro r
    constructor
    · exact mem_validate (by decide) _
    · exact mem_validate (by decide) _
  · intro r h
    simp only [Main.analyzeWithAI, h, Option.getD_none]
    rw [if_pos (by decide)]
  · intro r h
    simp only [Main.analyzeWithAI, h, Option.getD_none]
  · intro r h
    simp only [Main.analyzeWithAI, h, Option.getD_none]
    rw [if_pos (by decide)]
  · intro r
    refine ⟨_, rfl, ?_, ?_⟩
    · exact mem_validate (by decide) _
    · exact mem_validate (by decide) _

/-- C3 (witness): the amended theorem applied to a concrete unparsable
response: every per-field scanner fails and every field is defaulted. -/
theorem c3_extractor_defaults_witness :
    (scanSentiment (trimStr (str "hello")) = none
      ∧ scanThemes (trimStr (str "hello")) = none
      ∧ scanUrgency (trimStr (str "hello")) = none)
    ∧ (Main.analyzeWithAI (some (str "hello"))).sentiment = str "neutral"
    ∧ (Main.analyzeWithAI (some (str "hello"))).themes = str "general"
    ∧ (Main.analyzeWithAI (some (str "hello"))).urgency = str "medium" :=
  ⟨⟨by decide, by decide, by decide⟩,
   c3_extractor_defaults.2.2.1 (str "hello") (by decide),
   c3_extractor_defaults.2.2.2.1 (str "hello") (by decide),
   c3_extractor_defaults.2.2.2.2.1 (str "hello") (by decide)⟩

/-- C8: when the store has no analyzed rows, the insights computation
short-circuits to the explicit empty-state sentinel (a message, with the empty
`insights` list carried by the `noData` constructor) and never returns a
(zero-filled or otherwise) `Insights` structure. -/
theorem c8_empty_state (rows : List FeedbackEntry)
    (h : rows.filter (fun f => !(f.sentiment == none)) = []) :
    Main.getInsightsCore rows
      = .noData (str "No analyzed feedback yet. Click \"Analyze All Feedback\" first.")
    ∧ ∀ i : Insights, Main.getInsightsCore rows ≠ .data i := by
  have hcore : Main.getInsightsCore rows
      = .noData (str "No analyzed feedback yet. Click \"Analyze All Feedback\" first.") := by
    unfold Main.getInsightsCore
    rw [h]
    rfl
  refine ⟨hcore, ?_⟩
  intro i hi
  rw [hcore] at hi
  cases hi

/-- C8 (witness): the empty-state theorem applied to a store holding only
unanalyzed rows. -/
theorem c8_empty_state_witness :
    ([sampleUn1, sampleUn2].filter (fun f => !(f.sentiment == none)) = [])
    ∧ Main.getInsightsCore [sampleUn1, sampleUn2]
        = .noData (str "No analyzed feedback yet. Click \"Analyze All Feedback\" first.") :=
  ⟨by decide, (c8_empty_state [sampleUn1, sampleUn2] (by decide)).1⟩

/-- C9: a submission with an empty `source` or `text` fails validation in both
versions and leaves the store untouched; a submission with both fields
non-empty (and no label fields, i.e. the two-field API) creates exactly one new
row carrying a fresh id not present in the store, null
sentiment/themes/urgency, and the submitted fields. -/
theorem c9_submit_validation :
    (∀ (source text : Str) (now : Nat) (s : ServerState),
      source = [] ∨ text = [] →
        Main.submitFeedback source text now s = (.badRequest, s)
        ∧ Alt.submitFeedback source text none none none now s = (.badRequest, s))
    ∧ (∀ (source text : Str) (now : Nat) (s : ServerState),
        source ≠ [] → text ≠ [] → (∀ f ∈ s.rows, f.id < s.nextId) →
        (Main.submitFeedback source text now s).1
            = .created ⟨s.nextId, source, text, none, none, none, now⟩
        ∧ (Main.submitFeedback source text now s).2.rows
            = s.rows ++ [⟨s.nextId, source, text, none, none, none, now⟩]
        ∧ (Alt.submitFeedback source text none none none now s).1
            = .created ⟨s.nextId, source, text, none, none, none, now⟩
        ∧ (Alt.submitFeedback source text none none none now s).2.rows
            = s.rows ++ [⟨s.nextId, source, text, none, none, none, now⟩]
        ∧ s.nextId ∉ s.rows.map (fun f => f.id)) := by
  constructor
  · intro source text now s h
    have hempty : (source.isEmpty || text.isEmpty) = true := by
      rcases h with rfl | rfl
      · simp
      · simp
    constructor
    · simp only [Main.submitFeedback, hempty, if_true]
    · simp only [Alt.submitFeedback, hempty, if_true]
  · intro source text now s hs ht hw
    have hempty : (source.isEmpty || text.isEmpty) = false := by
      simp [hs, ht]
    refine ⟨?_, ?_, ?_, ?_, ?_⟩
    · simp only [Main.submitFeedback, hempty, Bool.false_eq_true, if_false]
    · simp only [Main.submitFeedback, hempty, Bool.false_eq_true, if_false]
    · simp only [Alt.submitFeedback, hempty, Bool.false_eq_true, if_false, jsOrNull]
    · simp only [Alt.submitFeedback, hempty, Bool.false_eq_true, if_false, jsOrNull]
    · intro hmem
      rcases List.mem_map.mp hmem with ⟨f, hf, hid⟩
      exact absurd hid (Nat.ne_of_lt (hw f hf))

/-- C9 (witness): the submit theorem applied to concrete inputs: an empty
source is rejected with the store unchanged, and a valid submission appends a
fresh null-labelled row. -/
theorem c9_submit_validation_witness :
    (Main.submitFeedback [] (str "x") 7 sampleState = (.badRequest, sampleState)
      ∧ Alt.submitFeedback [] (str "x") none none none 7 sampleState
          = (.badRequest, sampleState))
    ∧ ((str "github" : Str) ≠ [] ∧ (str "hi" : Str) ≠ []
        ∧ (∀ f ∈ sampleState.rows, f.id < sampleState.nextId))
    ∧ (Main.submitFeedback (str "github") (str "hi") 7 sampleState).1
        = .created ⟨sampleState.nextId, str "github", str "hi", none, none, none, 7⟩ :=
  ⟨c9_submit_validation.1 [] (str "x") 7 sampleState (Or.inl rfl),
   ⟨by decide, by decide, by decide⟩,
   (c9_submit_validation.2 (str "github") (str "hi") 7 sampleState
      (by decide) (by decide) (by decide)).1⟩

/-- C10: every row of `topPriorityIssues`, `topFeatureRequests` and
`quickWins` carries the preview `text.substring(0, 100) + '...'` of some
source entry, and the `'...'` marker is appended unconditionally: for a text
of at most 100 characters the preview is the whole text plus `'...'`, hence
never equal to the original text. -/
theorem c10_text_preview (feedback : List FeedbackEntry) :
    (∀ row ∈ (Main.mkInsights feedback).topPriorityIssues,
      ∃ f ∈ feedback, row.text = previewOf f.text)
    ∧ (∀ row ∈ (Main.mkInsights feedback).topFeatureRequests,
      ∃ f ∈ feedback, row.text = previewOf f.text)
    ∧ (∀ row ∈ (Main.mkInsights feedback).quickWins,
      ∃ f ∈ feedback, row.text = previewOf f.text)
    ∧ (∀ t : Str, t.length ≤ 100 → previewOf t = t ++ str "..." ∧ previewOf t ≠ t) := by
  refine ⟨?_, ?_, ?_, ?_⟩
  · intro row hrow
    simp only [Main.mkInsights] at hrow
    rcases List.mem_map.mp hrow with ⟨f, hf, rfl⟩
    exact ⟨f, (List.filter_sublist _).subset (List.take_subset _ _ hf), rfl⟩
  · intro row hrow
    simp only [Main.mkInsights] at hrow
    rcases List.mem_map.mp hrow with ⟨f, hf, rfl⟩
    exact ⟨f, (List.filter_sublist _).subset (List.take_subset _ _ hf), rfl⟩
  · intro row hrow
    simp only [Main.mkInsights] at hrow
    rcases List.mem_map.mp hrow with ⟨f, hf, rfl⟩
    exact ⟨f, (List.filter_sublist _).subset (List.take_subset _ _ hf), rfl⟩
  · intro t ht
    have htake : t.take 100 = t := List.take_of_length_le ht
    constructor
    · unfold previewOf
      rw [htake]
    · unfold previewOf
      rw [htake]
      intro heq
      have := congrArg List.length heq
      simp [str] at this

/-- C10 (witness): the preview theorem applied to the concrete analyzed set:
the first priority row previews the first entry's text, and a short text is
never equal to its own preview. -/
theorem c10_text_preview_witness :
    ((⟨previewOf (str "crash on login"), str "app", some (str "bug"), 10⟩ : PriorityRow)
        ∈ (Main.mkInsights sampleAnalyzed).topPriorityIssues
      ∧ (str "crash on login" : Str).length ≤ 100)
    ∧ (∃ f ∈ sampleAnalyzed,
        (⟨previewOf (str "crash on login"), str "app", some (str "bug"), 10⟩ :
            PriorityRow).text = previewOf f.text)
    ∧ previewOf (str "crash on login") = str "crash on login" ++ str "..."
    ∧ previewOf (str "crash on login") ≠ str "crash on login" :=
  ⟨⟨by decide, by decide⟩,
   (c10_text_preview sampleAnalyzed).1 _ (by decide),
   ((c10_text_preview sampleAnalyzed).2.2.2 (str "crash on login") (by decide)).1,
   ((c10_text_preview sampleAnalyzed).2.2.2 (str "crash on login") (by decide)).2⟩

/-- The code's `(feedback.length - negative) / feedback.length < 0.5` (exact
in JS for these magnitudes) agrees with the exact rational inequality for a
non-empty list. -/
theorem trendingNegative_iff (feedback : List FeedbackEntry) (h : feedback ≠ []) :
    Main.sentimentTrendingNegative feedback = true ↔
      ((feedback.length : ℚ) - Main.negative feedback) / feedback.length < 0.5 := by
  have hl : 0 < feedback.length := List.length_pos.mpr h
  have hq : (0 : ℚ) < feedback.length := by
    exact_mod_cast hl
  have hneg : Main.negative feedback ≤ feedback.length := List.length_filter_le _ _
  unfold Main.sentimentTrendingNegative
  rw [decide_eq_true_eq, div_lt_iff₀ hq]
  constructor
  · intro h2
    have h3 : ((2 * (feedback.length - Main.negative feedback) : ℕ) : ℚ)
        < ((feedback.length : ℕ) : ℚ) := by
      exact_mod_cast h2
    push_cast [Nat.cast_sub hneg] at h3
    linarith
  · intro h2
    have h3 : ((2 * (feedback.length - Main.negative feedback) : ℕ) : ℚ)
        < ((feedback.length : ℕ) : ℚ) := by
      push_cast [Nat.cast_sub hneg]
      push_cast at h2
      linarith
    exact_mod_cast h3

/-- C4: for every non-empty analyzed set, `generateActionItems` is exactly the
concatenation of the seven rules in their fixed order: a count-bearing
high-urgency alert iff any high-urgency items exist, a stability
recommendation iff the bug count exceeds 5, a prioritization recommendation
iff the feature-request count exceeds 3, a sentiment recommendation iff the
fraction of non-negative entries is below 0.5, a performance recommendation
iff the performance count exceeds 2, a docs recommendation iff the
documentation count exceeds 2, and the no-critical-issues affirmation iff
none of the six rules fired. -/
theorem c4_action_items (feedback : List FeedbackEntry) (h : feedback ≠ []) :
    Main.generateActionItems feedback =
      (if Main.highUrgency feedback > 0 then [itemHighUrgency (Main.highUrgency feedback)]
       else [])
      ++ (if Main.bugs feedback > 5 then [itemBugs (Main.bugs feedback)] else [])
      ++ (if Main.featureRequests feedback > 3 then
            [itemFeatureRequests (Main.featureRequests feedback)]
          else [])
      ++ (if ((feedback.length : ℚ) - Main.negative feedback) / feedback.length < 0.5 then
            [itemTrendingNegative]
          else [])
      ++ (if Main.performance feedback > 2 then [itemPerformance (Main.performance feedback)]
          else [])
      ++ (if Main.documentation feedback > 2 then
            [itemDocumentation (Main.documentation feedback)]
          else [])
      ++ (if ¬(Main.highUrgency feedback > 0) ∧ ¬(Main.bugs feedback > 5)
            ∧ ¬(Main.featureRequests feedback > 3)
            ∧ ¬(((feedback.length : ℚ) - Main.negative feedback) / feedback.length < 0.5)
            ∧ ¬(Main.performance feedback > 2) ∧ ¬(Main.documentation feedback > 2) then
            [itemNoCritical]
          else []) := by
  have ht := trendingNegative_iff feedback h
  by_cases h1 : Main.highUrgency feedback > 0 <;>
    by_cases h2 : Main.bugs feedback > 5 <;>
      by_cases h3 : Main.featureRequests feedback > 3 <;>
        by_cases h4 : Main.sentimentTrendingNegative feedback <;>
          by_cases h5 : Main.performance feedback > 2 <;>
            by_cases h6 : Main.documentation feedback > 2 <;>
              simp [Main.generateActionItems, h1, h2, h3, h4, h5, h6, ← ht]

/-- C4 (witness): the rule theorem applied to the three-entry scenario, where
exactly rules 1 (two high-urgency items) and 4 (sentiment trending negative)
fire, in that order. -/
theorem c4_action_items_witness :
    (sampleAnalyzed ≠ [])
    ∧ Main.generateActionItems sampleAnalyzed
        = [itemHighUrgency 2, itemTrendingNegative]
    ∧ Main.generateActionItems sampleAnalyzed =
      (if Main.highUrgency sampleAnalyzed > 0 then
        [itemHighUrgency (Main.highUrgency sampleAnalyzed)]
       else [])
      ++ (if Main.bugs sampleAnalyzed > 5 then [itemBugs (Main.bugs sampleAnalyzed)] else [])
      ++ (if Main.featureRequests sampleAnalyzed > 3 then
            [itemFeatureRequests (Main.featureRequests sampleAnalyzed)]
          else [])
      ++ (if ((sampleAnalyzed.length : ℚ) - Main.negative sampleAnalyzed)
              / sampleAnalyzed.length < 0.5 then
            [itemTrendingNegative]
          else [])
      ++ (if Main.performance sampleAnalyzed > 2 then
            [itemPerformance (Main.performance sampleAnalyzed)]
          else [])
      ++ (if Main.documentation sampleAnalyzed > 2 then
            [itemDocumentation (Main.documentation sampleAnalyzed)]
          else [])
      ++ (if ¬(Main.highUrgency sampleAnalyzed > 0) ∧ ¬(Main.bugs sampleAnalyzed > 5)
            ∧ ¬(Main.featureRequests sampleAnalyzed > 3)
            ∧ ¬(((sampleAnalyzed.length : ℚ) - Main.negative sampleAnalyzed)
                  / sampleAnalyzed.length < 0.5)
            ∧ ¬(Main.performance sampleAnalyzed > 2)
            ∧ ¬(Main.documentation sampleAnalyzed > 2) then
            [itemNoCritical]
          else []) :=
  ⟨by decide, by decide, c4_action_items sampleAnalyzed (by decide)⟩

/-- C5: for every non-empty analyzed set, `calculateSentimentScore` equals
`round(100 · total / count)` with `round q = ⌊q + 1/2⌋` over exact rationals
(where `total` sums `score(positive)=1, score(neutral)=0, score(negative)=-1`),
and the result is an integer in `[-100, 100]`; on the spec scenario of two
high-urgency negative entries plus one positive entry it equals `-33`. -/
theorem c5_sentiment_score :
    (∀ feedback : List FeedbackEntry, feedback ≠ [] →
      Main.calculateSentimentScore feedback
          = ⌊100 * (Main.totalScore feedback : ℚ) / (feedback.length : ℚ) + 1/2⌋
        ∧ -100 ≤ Main.calculateSentimentScore feedback
        ∧ Main.calculateSentimentScore feedback ≤ 100)
    ∧ Main.calculateSentimentScore sampleAnalyzed = -33 := by
  constructor
  · intro feedback hne
    have hl : 0 < feedback.length := List.length_pos.mpr hne
    have hq0 : (0 : ℚ) < feedback.length := by
      exact_mod_cast hl
    have heq : Main.calculateSentimentScore feedback
        = ⌊100 * (Main.totalScore feedback : ℚ) / (feedback.length : ℚ) + 1/2⌋ := by
      unfold Main.calculateSentimentScore
      exact jsRound_div (Main.totalScore feedback) feedback.length hl
    rcases totalScore_bounds feedback with ⟨hb1, hb2⟩
    have hub : 100 * (Main.totalScore feedback : ℚ) / feedback.length ≤ 100 := by
      rw [div_le_iff₀ hq0]
      have hc : (Main.totalScore feedback : ℚ) ≤ feedback.length := by
        exact_mod_cast hb2
      linarith
    have hlb : -100 ≤ 100 * (Main.totalScore feedback : ℚ) / feedback.length := by
      rw [le_div_iff₀ hq0]
      have hc : -(feedback.length : ℚ) ≤ (Main.totalScore feedback : ℚ) := by
        exact_mod_cast hb1
      linarith
    refine ⟨heq, ?_, ?_⟩
    · rw [heq]
      apply Int.le_floor.mpr
      push_cast
      linarith
    · rw [heq]
      have hfl : ⌊100 * (Main.totalScore feedback : ℚ) / (feedback.length : ℚ) + 1/2⌋
          ≤ ⌊((201 : ℤ) : ℚ) / ((2 : ℕ) : ℚ)⌋ := by
        apply Int.floor_le_floor
        push_cast
        linarith
    
      have h201 : ⌊((201 : ℤ) : ℚ) / ((2 : ℕ) : ℚ)⌋ = 100 := by
        rw [Rat.floor_intCast_div_natCast]
        decide
      rw [h201] at hfl
      exact hfl
  · decide

/-- C5 (witness): the score theorem applied to the spec scenario (`-33` lies
within the stated bounds, and the closed formula agrees). -/
theorem c5_sentiment_score_witness :
    (sampleAnalyzed ≠ [])
    ∧ (Main.calculateSentimentScore sampleAnalyzed
          = ⌊100 * (Main.totalScore sampleAnalyzed : ℚ) / (sampleAnalyzed.length : ℚ) + 1/2⌋
        ∧ -100 ≤ Main.calculateSentimentScore sampleAnalyzed
        ∧ Main.calculateSentimentScore sampleAnalyzed ≤ 100)
    ∧ Main.calculateSentimentScore sampleAnalyzed = -33 :=
  ⟨by decide, c5_sentiment_score.1 sampleAnalyzed (by decide), by decide⟩

/-- JS `highs > count / 2` (exact half) as a natural-number comparison. -/
theorem nat_half_lt_iff (a b : ℕ) : (b : ℚ) / 2 < a ↔ b < 2 * a := by
  rw [div_lt_iff₀ (by norm_num : (0:ℚ) < 2)]
  constructor
  · intro h
    have : ((b : ℕ) : ℚ) < ((2 * a : ℕ) : ℚ) := by
      push_cast
      linarith
    exact_mod_cast this
  · intro h
    have : ((b : ℕ) : ℚ) < ((2 * a : ℕ) : ℚ) := by
      exact_mod_cast h
    push_cast at this
    linarith

/-- The descending-by-count comparator sorts into a `Pairwise` chain. -/
theorem sortBy_key_pairwise {α : Type} (key : α → Nat) (l : List α) :
    (sortBy (fun a b => decide (key b ≤ key a)) l).Pairwise (fun a b => key b ≤ key a) := by
  have htot : ∀ x y : α, (fun a b => decide (key b ≤ key a)) x y = true
      ∨ (fun a b => decide (key b ≤ key a)) y x = true := by
    intro x y
    rcases Nat.le_total (key y) (key x) with h | h
    · exact Or.inl (by simpa using h)
    · exact Or.inr (by simpa using h)
  have htrans : ∀ x y z : α, (fun a b => decide (key b ≤ key a)) x y = true
      → (fun a b => decide (key b ≤ key a)) y z = true
      → (fun a b => decide (key b ≤ key a)) x z = true := by
    intro x y z hxy hyz
    simp only [decide_eq_true_eq] at hxy hyz ⊢
    omega
  exact (sortBy_pairwise htot htrans l).imp (fun hab => by simpa using hab)

/-- Every key of the occurrence table comes from some occurrence. -/
theorem tally_key_mem {β : Type} {ps : List (Str × β)} {e : Str × List β}
    (he : e ∈ tally ps) : ∃ q ∈ ps, q.1 = e.1 := by
  rw [tally_spec] at he
  rcases List.mem_map.mp he with ⟨k, hk, rfl⟩
  rcases List.mem_map.mp ((occKeys_mem ps k).mp hk) with ⟨q, hq, hqk⟩
  exact ⟨q, hq, hqk⟩

/-- Occurrence keys of `getPainPoints` are individual split-and-trimmed tags,
so they never contain the delimiter. -/
theorem ppPairs_fst_no_comma {feedback : List FeedbackEntry} {q : Str × Option Str}
    (hq : q ∈ Main.ppPairs feedback) : ',' ∉ q.1 := by
  unfold Main.ppPairs at hq
  rcases List.mem_flatMap.mp hq with ⟨f, _, hq2⟩
  rcases List.mem_map.mp hq2 with ⟨t, ht, rfl⟩
  exact fun hc => splitTrim_no_comma ht hc

/-- Occurrence keys of `getThemeBreakdown` are individual split-and-trimmed
tags, so they never contain the delimiter. -/
theorem tbPairs_fst_no_comma {feedback : List FeedbackEntry} {q : Str × Option Str}
    (hq : q ∈ Main.tbPairs feedback) : ',' ∉ q.1 := by
  unfold Main.tbPairs at hq
  rcases List.mem_flatMap.mp hq with ⟨f, _, hq2⟩
  rcases List.mem_map.mp hq2 with ⟨t, ht, rfl⟩
  exact fun hc => splitTrim_no_comma ht hc

/-- C6: `painPoints` is built only from negative-sentiment entries (filtering
the input to those entries changes nothing), has at most 5 rows sorted by
count descending, and each row's count is the number of `(theme, urgency)`
occurrences of its theme over the split-and-trimmed tags of negative entries
(one occurrence per tag an entry lists), with `severity = "high"` iff more
than half of those occurrences carry `urgency == "high"`; themes are
individual tags (never containing the delimiter). -/
theorem c6_pain_points (feedback : List FeedbackEntry) :
    (Main.getPainPoints feedback).length ≤ 5
    ∧ (Main.getPainPoints feedback).Pairwise (fun a b => b.count ≤ a.count)
    ∧ Main.getPainPoints feedback
        = Main.getPainPoints (feedback.filter (fun f => f.sentiment == some (str "negative")))
    ∧ (∀ row ∈ Main.getPainPoints feedback,
        row.count = (Main.ppPairs feedback).countP (fun q => q.1 == row.theme)
        ∧ (row.severity = str "high" ↔
            (row.count : ℚ) / 2
              < (Main.ppPairs feedback).countP
                  (fun q => q.2 == some (str "high") && q.1 == row.theme))
        ∧ (row.severity = str "high" ∨ row.severity = str "medium")
        ∧ ',' ∉ row.theme) := by
  refine ⟨?_, ?_, ?_, ?_⟩
  · unfold Main.getPainPoints
    exact List.length_take_le 5 _
  · unfold Main.getPainPoints
    exact ((sortBy_key_pairwise (fun p : PainPoint => p.count) _).sublist
      (List.take_sublist _ _))
  · have hfil : (feedback.filter (fun f => f.sentiment == some (str "negative"))).filter
        (fun f => f.sentiment == some (str "negative") && jsTruthy f.themes)
        = feedback.filter (fun f => f.sentiment == some (str "negative") && jsTruthy f.themes) := by
      rw [List.filter_filter]
      apply List.filter_congr
      intro f _
      cases hA : (f.sentiment == some (str "negative")) <;> cases hT : jsTruthy f.themes <;>
        simp [hA, hT]
    have hpp : Main.ppPairs (feedback.filter (fun f => f.sentiment == some (str "negative")))
        = Main.ppPairs feedback := by
      unfold Main.ppPairs
      rw [hfil]
    unfold Main.getPainPoints
    rw [hpp]
  · intro row hrow
    simp only [Main.getPainPoints] at hrow
    have hrow2 := (sortBy_perm _ _).mem_iff.mp (List.take_subset _ _ hrow)
    rcases List.mem_map.mp hrow2 with ⟨e, he, rfl⟩
    have he2 := tally_mem he
    have hcount : e.2.length = (Main.ppPairs feedback).countP (fun q => q.1 == e.1) := by
      rw [he2, length_map_snd_filter]
    have hhigh : (((e.2.filter jsTruthy).filterMap id).filter
          (fun u => u == str "high")).length
        = (Main.ppPairs feedback).countP
            (fun q => q.2 == some (str "high") && q.1 == e.1) := by
      rw [high_filter_count, he2, countP_map_snd_filter]
    refine ⟨hcount, ?_, ?_, ?_⟩
    · show (if 2 * (((e.2.filter jsTruthy).filterMap id).filter
            (fun u => u == str "high")).length > e.2.length
          then str "high" else str "medium") = str "high"
        ↔ (e.2.length : ℚ) / 2
            < ((Main.ppPairs feedback).countP
                (fun q => q.2 == some (str "high") && q.1 == e.1) : ℚ)
      rw [← hhigh, nat_half_lt_iff]
      by_cases hc : 2 * (((e.2.filter jsTruthy).filterMap id).filter
          (fun u => u == str "high")).length > e.2.length
      · rw [if_pos hc]
        exact ⟨fun _ => hc, fun _ => rfl⟩
      · rw [if_neg hc]
        exact ⟨fun hmed => absurd hmed (by decide), fun hlt => absurd hlt hc⟩
    · show (if _ then str "high" else str "medium") = str "high"
          ∨ (if _ then str "high" else str "medium") = str "medium"
      split
      · exact Or.inl rfl
      · exact Or.inr rfl
    · show ',' ∉ e.1
      rcases tally_key_mem he with ⟨q, hq, hq1⟩
      exact fun hc => ppPairs_fst_no_comma hq (hq1 ▸ hc)

/-- C6 (witness): on the spec scenario the only pain point is
`{theme: "bug", count: 2, severity: "high"}`, and the per-row properties of
the theorem hold for it. -/
theorem c6_pain_points_witness :
    Main.getPainPoints sampleAnalyzed = [⟨str "bug", 2, str "high"⟩]
    ∧ ((⟨str "bug", 2, str "high"⟩ : PainPoint).count
          = (Main.ppPairs sampleAnalyzed).countP
              (fun q => q.1 == (⟨str "bug", 2, str "high"⟩ : PainPoint).theme)
      ∧ ((⟨str "bug", 2, str "high"⟩ : PainPoint).severity = str "high" ↔
          ((⟨str "bug", 2, str "high"⟩ : PainPoint).count : ℚ) / 2
            < (Main.ppPairs sampleAnalyzed).countP
                (fun q => q.2 == some (str "high")
                  && q.1 == (⟨str "bug", 2, str "high"⟩ : PainPoint).theme))
      ∧ ((⟨str "bug", 2, str "high"⟩ : PainPoint).severity = str "high"
          ∨ (⟨str "bug", 2, str "high"⟩ : PainPoint).severity = str "medium")
      ∧ ',' ∉ (⟨str "bug", 2, str "high"⟩ : PainPoint).theme) :=
  ⟨by decide,
   (c6_pain_points sampleAnalyzed).2.2.2 ⟨str "bug", 2, str "high"⟩ (by decide)⟩

/-- C7: `themeBreakdown` is computed over all entries with themes (no
sentiment filter), has at most 10 rows sorted by count descending, each row's
count is the number of `(theme, sentiment)` occurrences of its theme over the
split-and-trimmed tags (one occurrence per tag an entry lists, so an entry
with themes `"bug, performance"` contributes exactly one count to each of
`"bug"` and `"performance"`), `sentiment = "negative"` iff more than half of
that theme's occurrences are negative, and themes are individual tags (a
combined `"bug, performance"` key is impossible since keys never contain the
delimiter). -/
theorem c7_theme_breakdown (feedback : List FeedbackEntry) :
    (Main.getThemeBreakdown feedback).length ≤ 10
    ∧ (Main.getThemeBreakdown feedback).Pairwise (fun a b => b.count ≤ a.count)
    ∧ splitTrim (str "bug, performance") = [str "bug", str "performance"]
    ∧ (∀ row ∈ Main.getThemeBreakdown feedback,
        row.count = (Main.tbPairs feedback).countP (fun q => q.1 == row.theme)
        ∧ (row.sentiment = str "negative" ↔
            (row.count : ℚ) / 2
              < (Main.tbPairs feedback).countP
                  (fun q => q.2 == some (str "negative") && q.1 == row.theme))
        ∧ ',' ∉ row.theme) := by
  refine ⟨?_, ?_, by decide, ?_⟩
  · unfold Main.getThemeBreakdown
    exact List.length_take_le 10 _
  · unfold Main.getThemeBreakdown
    exact ((sortBy_key_pairwise (fun p : ThemeRow => p.count) _).sublist
      (List.take_sublist _ _))
  · intro row hrow
    simp only [Main.getThemeBreakdown] at hrow
    have hrow2 := (sortBy_perm _ _).mem_iff.mp (List.take_subset _ _ hrow)
    rcases List.mem_map.mp hrow2 with ⟨e, he, rfl⟩
    have he2 := tally_mem he
    have hcount : e.2.length = (Main.tbPairs feedback).countP (fun q => q.1 == e.1) := by
      rw [he2, length_map_snd_filter]
    have hneg : (e.2.filter (fun s => s == some (str "negative"))).length
        = (Main.tbPairs feedback).countP
            (fun q => q.2 == some (str "negative") && q.1 == e.1) := by
      rw [← List.countP_eq_length_filter, he2, countP_map_snd_filter]
    refine ⟨hcount, ?_, ?_⟩
    · show (if 2 * (e.2.filter (fun s => s == some (str "negative"))).length > e.2.length
          then str "negative" else str "positive") = str "negative"
        ↔ (e.2.length : ℚ) / 2
            < ((Main.tbPairs feedback).countP
                (fun q => q.2 == some (str "negative") && q.1 == e.1) : ℚ)
      rw [← hneg, nat_half_lt_iff]
      by_cases hc : 2 * (e.2.filter (fun s => s == some (str "negative"))).length > e.2.length
      · rw [if_pos hc]
        exact ⟨fun _ => hc, fun _ => rfl⟩
      · rw [if_neg hc]
        exact ⟨fun hpos => absurd hpos (by decide), fun hlt => absurd hlt hc⟩
    · show ',' ∉ e.1
      rcases tally_key_mem he with ⟨q, hq, hq1⟩
      exact fun hc => tbPairs_fst_no_comma hq (hq1 ▸ hc)

/-- C7 (witness): on the spec scenario the breakdown is
`[{bug, 2, negative}, {ux, 1, positive}]` and the per-row properties hold for
the `bug` row. -/
theorem c7_theme_breakdown_witness :
    Main.getThemeBreakdown sampleAnalyzed
        = [⟨str "bug", 2, str "negative"⟩, ⟨str "ux", 1, str "positive"⟩]
    ∧ ((⟨str "bug", 2, str "negative"⟩ : ThemeRow).count
          = (Main.tbPairs sampleAnalyzed).countP
              (fun q => q.1 == (⟨str "bug", 2, str "negative"⟩ : ThemeRow).theme)
      ∧ ((⟨str "bug", 2, str "negative"⟩ : ThemeRow).sentiment = str "negative" ↔
          ((⟨str "bug", 2, str "negative"⟩ : ThemeRow).count : ℚ) / 2
            < (Main.tbPairs sampleAnalyzed).countP
                (fun q => q.2 == some (str "negative")
                  && q.1 == (⟨str "bug", 2, str "negative"⟩ : ThemeRow).theme))
      ∧ ',' ∉ (⟨str "bug", 2, str "negative"⟩ : ThemeRow).theme) :=
  ⟨by decide,
   (c7_theme_breakdown sampleAnalyzed).2.2.2 ⟨str "bug", 2, str "negative"⟩ (by decide)⟩
